import Mathlib

/-!
# Verification of the Storm flood tester core

Shallow embedding of the Storm load-testing engine:
* response classification (`storm/ethereum.py` `_send_request`,
  `storm/abci_query_fuzzer.py` `query`),
* running statistics aggregation of the batch dispatch loops
  (`storm/ethereum.py` `RPCFloodTester.run`, `storm/abci.py`
  `ABCIFloodTester.run`),
* the availability-prober filtering and batch selection,
* the path-discovery state of `ABCIQueryFuzzer.discover_working_paths`,
* request-id generation and constructor-time method validation.

Response times (Python floats) are modelled as rationals; the
`float('inf')` sentinel of `min_response_time` is modelled with
`WithTop ℚ`.  A request dispatched through `asyncio.gather(...,
return_exceptions=True)` yields exactly one slot per task: either the
`(success, response_time)` pair returned by `_send_request`, or the
exception object itself.
-/

namespace Storm

/-- One slot of the `asyncio.gather(*tasks, return_exceptions=True)` result
list: either the `(success, response_time)` pair returned by
`_send_request`, or an exception object captured by `gather`. -/
inductive BatchResult where
  | exception (e : String)
  | outcome (success : Bool) (responseTime : ℚ)
deriving DecidableEq

/-- The response body as consumed by the classifiers: `json.loads` either
raises (`malformed`) or yields a JSON value, which the code only inspects
through its top-level `"error"` member and (for `abci_query`) the
`result.response.code` field, read with default `0`. -/
inductive Body where
  | malformed (raw : String)
  | parsed (raw : String) (errorMember : Option String) (resultCode : Int)
deriving DecidableEq

/-- The raw text of the response body (available whether or not it parses). -/
def Body.raw : Body → String
  | .malformed r => r
  | .parsed r _ _ => r

/-- The classification outcome of one response. -/
inductive Classified where
  | transportFailure (e : String)
  | httpFailure (status : ℕ) (body : String)
  | malformedFailure (raw : String)
  | protocolFailure (err : String)
  | codeFailure (code : Int)
  | success
deriving DecidableEq

/-- Classification performed by `RPCFloodTester._send_request`
(`storm/ethereum.py` lines 149-187): transport exception, then HTTP
status, then JSON parse, then the JSON-RPC `error` member, else success.
`ABCIFloodTester._send_request` (`storm/abci.py` lines 314-351) is the
same decision tree. -/
def classifyEth (transportError : Option String) (status : ℕ) (body : Body) :
    Classified :=
  match transportError with
  | some e => .transportFailure e
  | none =>
    if status = 200 then
      match body with
      | .malformed raw => .malformedFailure raw
      | .parsed _ (some err) _ => .protocolFailure err
      | .parsed _ none _ => .success
    else .httpFailure status body.raw

/-- Classification performed by `ABCIQueryFuzzer.query`
(`storm/abci_query_fuzzer.py` lines 261-303): like `classifyEth` but a
parsed, error-free body with `result.response.code ≠ 0` is a failure. -/
def classifyQuery (transportError : Option String) (status : ℕ) (body : Body) :
    Classified :=
  match transportError with
  | some e => .transportFailure e
  | none =>
    if status = 200 then
      match body with
      | .malformed raw => .malformedFailure raw
      | .parsed _ (some err) _ => .protocolFailure err
      | .parsed _ none code => if code ≠ 0 then .codeFailure code else .success
    else .httpFailure status body.raw

/-- The five (six for query-style) branches of the classification chain. -/
inductive Branch where
  | transport
  | http
  | malformedBody
  | protocolError
  | nonzeroCode
  | ok
deriving DecidableEq

/-- Which branch a classification outcome belongs to. -/
def Classified.branch : Classified → Branch
  | .transportFailure _ => .transport
  | .httpFailure _ _ => .http
  | .malformedFailure _ => .malformedBody
  | .protocolFailure _ => .protocolError
  | .codeFailure _ => .nonzeroCode
  | .success => .ok

/-- Branch selection exactly as the claim orders it for the flood testers:
transport error present, then HTTP status outside the success range, then
body fails to parse, then a JSON-RPC `error` member, then success.  Written
from the spec's wording, to be compared with `classifyEth`. -/
def specBranchEth (transportError : Option String) (status : ℕ) (body : Body) :
    Branch :=
  if transportError.isSome then .transport
  else if status ≠ 200 then .http
  else
    match body with
    | .malformed _ => .malformedBody
    | .parsed _ (some _) _ => .protocolError
    | .parsed _ none _ => .ok

/-- Branch selection as the claim orders it for the query-style protocol:
as `specBranchEth` with a non-zero result status code checked after the
protocol-error member and before success.  Written from the spec's
wording, to be compared with `classifyQuery`. -/
def specBranchQuery (transportError : Option String) (status : ℕ) (body : Body) :
    Branch :=
  if transportError.isSome then .transport
  else if status ≠ 200 then .http
  else
    match body with
    | .malformed _ => .malformedBody
    | .parsed _ (some _) _ => .protocolError
    | .parsed _ none code => if code ≠ 0 then .nonzeroCode else .ok

/-! ## Running statistics of the Ethereum flood dispatcher -/

/-- `self.stats` of `RPCFloodTester` (`storm/ethereum.py` lines 40-51),
restricted to the fields the dispatch loop mutates.  `min_response_time`
starts at `float('inf')` (here `⊤`), `max_response_time` at `0`. -/
structure EthStats where
  totalRequests : ℕ
  successfulRequests : ℕ
  failedRequests : ℕ
  requestsByMethod : String → ℕ
  errorsByMethod : String → ℕ
  minResponseTime : WithTop ℚ
  maxResponseTime : ℚ
  totalResponseTime : ℚ
  availableMethods : List String
  unavailableMethods : List String

/-- Initial statistics of a run (`storm/ethereum.py` lines 40-51). -/
def ethInitStats : EthStats :=
  { totalRequests := 0
    successfulRequests := 0
    failedRequests := 0
    requestsByMethod := fun _ => 0
    errorsByMethod := fun _ => 0
    minResponseTime := ⊤
    maxResponseTime := 0
    totalResponseTime := 0
    availableMethods := []
    unavailableMethods := [] }

/-- `d[m] = d.get(m, 0) + 1` on a counter map. -/
def bumpCount (f : String → ℕ) (m : String) : String → ℕ :=
  fun x => if x = m then f x + 1 else f x

/-- Folding one gathered result into the Ethereum statistics
(`storm/ethereum.py` lines 286-308): always count the request and its
method; an exception slot or a failed outcome increments the failure
counters; a successful outcome increments the success counter and updates
the latency accumulators (sum, min, max) — latency is accumulated on the
success path only. -/
def ethFoldOne (s : EthStats) (m : String) (r : BatchResult) : EthStats :=
  let s := { s with
    totalRequests := s.totalRequests + 1
    requestsByMethod := bumpCount s.requestsByMethod m }
  match r with
  | .exception _ =>
      { s with
        failedRequests := s.failedRequests + 1
        errorsByMethod := bumpCount s.errorsByMethod m }
  | .outcome true rt =>
      { s with
        successfulRequests := s.successfulRequests + 1
        totalResponseTime := s.totalResponseTime + rt
        minResponseTime :=
          if (rt : WithTop ℚ) < s.minResponseTime then (rt : WithTop ℚ)
          else s.minResponseTime
        maxResponseTime :=
          if s.maxResponseTime < rt then rt else s.maxResponseTime }
  | .outcome false _ =>
      { s with
        failedRequests := s.failedRequests + 1
        errorsByMethod := bumpCount s.errorsByMethod m }

/-- One batch of the Ethereum dispatch loop: every gathered slot is folded
in order (`storm/ethereum.py` lines 286-308). -/
def ethCycle (s : EthStats) (batch : List (String × BatchResult)) : EthStats :=
  batch.foldl (fun s p => ethFoldOne s p.1 p.2) s

/-- The Ethereum batch loop over a whole run (`storm/ethereum.py`
lines 269-316): one `ethCycle` per second until the deadline. -/
def ethRunLoop (s : EthStats) (batches : List (List (String × BatchResult))) :
    EthStats :=
  batches.foldl ethCycle s

/-- Average response time computed at the end of the Ethereum run
(`storm/ethereum.py` lines 324-328): `total_response_time /
successful_requests`, guarded to `0` when there were no successes. -/
def ethAvg (s : EthStats) : ℚ :=
  if 0 < s.successfulRequests then
    s.totalResponseTime / (s.successfulRequests : ℚ)
  else 0

/-! ## Running statistics of the ABCI flood dispatcher -/

/-- `self.stats` of `ABCIFloodTester` (`storm/abci.py` lines 76-88),
restricted to the fields the dispatch loop mutates. -/
structure AbciStats where
  totalRequests : ℕ
  successfulRequests : ℕ
  failedRequests : ℕ
  requestsByMethod : String → ℕ
  errorsByMethod : String → ℕ
  minResponseTime : WithTop ℚ
  maxResponseTime : ℚ
  totalResponseTime : ℚ
  availableMethods : List String

/-- Initial statistics of an ABCI run (`storm/abci.py` lines 76-88). -/
def abciInitStats : AbciStats :=
  { totalRequests := 0
    successfulRequests := 0
    failedRequests := 0
    requestsByMethod := fun _ => 0
    errorsByMethod := fun _ => 0
    minResponseTime := ⊤
    maxResponseTime := 0
    totalResponseTime := 0
    availableMethods := [] }

/-- Folding one gathered result into the ABCI statistics
(`storm/abci.py` lines 434-454).  Unlike the Ethereum variant,
`total_requests` is NOT incremented here (it is added once per cycle,
line 465), and the latency accumulators are updated for every
non-exception outcome, failed or successful. -/
def abciFoldOne (s : AbciStats) (m : String) (r : BatchResult) : AbciStats :=
  match r with
  | .exception _ =>
      { s with
        failedRequests := s.failedRequests + 1
        errorsByMethod := bumpCount s.errorsByMethod m }
  | .outcome ok rt =>
      let s :=
        if ok then { s with successfulRequests := s.successfulRequests + 1 }
        else
          { s with
            failedRequests := s.failedRequests + 1
            errorsByMethod := bumpCount s.errorsByMethod m }
      { s with
        minResponseTime :=
          if (rt : WithTop ℚ) < s.minResponseTime then (rt : WithTop ℚ)
          else s.minResponseTime
        maxResponseTime :=
          if s.maxResponseTime < rt then rt else s.maxResponseTime
        totalResponseTime := s.totalResponseTime + rt }

/-- The per-selection `requests_by_method` increments done while building
the batch (`storm/abci.py` line 428); only the per-method counter map is
touched. -/
def abciDispatch (s : AbciStats) (ms : List String) : AbciStats :=
  { s with requestsByMethod := ms.foldl bumpCount s.requestsByMethod }

/-- One cycle of the ABCI dispatch loop (`storm/abci.py` lines 419-465):
bump the per-method request counters at dispatch time, fold every gathered
slot, then add the whole batch size to `total_requests` at the very end of
the cycle (line 465). -/
def abciCycle (s : AbciStats) (batch : List (String × BatchResult)) :
    AbciStats :=
  let s := abciDispatch s (batch.map Prod.fst)
  let s := batch.foldl (fun s p => abciFoldOne s p.1 p.2) s
  { s with totalRequests := s.totalRequests + batch.length }

/-- The ABCI batch loop over a whole run (`storm/abci.py` lines 416-465). -/
def abciRunLoop (s : AbciStats) (batches : List (List (String × BatchResult))) :
    AbciStats :=
  batches.foldl abciCycle s

/-- Average response time computed by `ABCIFloodTester._print_report`
(`storm/abci.py` line 482): `total_response_time / max(1, total_requests)`. -/
def abciAvg (s : AbciStats) : ℚ :=
  s.totalResponseTime / ((max 1 s.totalRequests : ℕ) : ℚ)

/-! ## Availability probing and batch selection -/

/-- The availability prober keeps exactly the candidate methods whose
single probe request succeeded (`storm/ethereum.py` lines 205-221 and
255-260; `storm/abci.py` lines 183-202 and 397). -/
def probeFilter (methods : List String) (probeOk : String → Bool) :
    List String :=
  methods.filter probeOk

/-- `random.choice` over the available method list, with the random draw
`k` abstracted as an arbitrary natural number indexing into the list
(`storm/ethereum.py` line 278, `storm/abci.py` line 425). -/
def selectMethod (avail : List String) (h : avail ≠ []) (k : ℕ) : String :=
  avail.get ⟨k % avail.length, Nat.mod_lt _ (List.length_pos.mpr h)⟩

/-- `RPCFloodTester._test_method_availability` plus the filtering in `run`
(`storm/ethereum.py` lines 205-221, 255-260): record the available and
unavailable method lists in the statistics and zero the request counter of
every available method. -/
def ethProbe (s : EthStats) (methods : List String) (probeOk : String → Bool) :
    EthStats :=
  { s with
    availableMethods := probeFilter methods probeOk
    unavailableMethods := methods.filter (fun m => !probeOk m)
    requestsByMethod :=
      fun m => if m ∈ probeFilter methods probeOk then 0
               else s.requestsByMethod m }

/-- Control flow of `RPCFloodTester.run` (`storm/ethereum.py`
lines 223-336): probe, and if no method is available print an error,
close the session and RETURN the statistics object (line 249) — no
exception is raised; otherwise run the batch loop.  A raised hard stop
would be an `Except.error`; the Ethereum run never produces one. -/
def ethRun (methods : List String) (probeOk : String → Bool)
    (batches : List (List (String × BatchResult))) : Except ℕ EthStats :=
  let s := ethProbe ethInitStats methods probeOk
  if s.availableMethods = [] then .ok s
  else .ok (ethRunLoop s batches)

/-- Control flow of `ABCIFloodTester.run` (`storm/abci.py` lines 369-477):
a failed liveness probe calls `sys.exit(1)` (line 391), an empty available
method set calls `sys.exit(1)` (line 402) — both modelled as
`Except.error 1` — otherwise the batch loop runs and the statistics are
returned. -/
def abciRun (serviceOk : Bool) (methods : List String)
    (probeOk : String → Bool)
    (batches : List (List (String × BatchResult))) : Except ℕ AbciStats :=
  if !serviceOk then .error 1
  else
    let avail := probeFilter methods probeOk
    if avail = [] then .error 1
    else .ok (abciRunLoop { abciInitStats with availableMethods := avail } batches)

/-! ## Request-id generation -/

/-- `ABCIFloodTester._get_request_id` (`storm/abci.py` lines 144-147) and
the inline `self.request_id += 1` of `RPCFloodTester._send_request`
(`storm/ethereum.py` line 141): increment the per-instance counter and use
its new value as the request id.  Returns `(new counter, issued id)`. -/
def getRequestId (c : ℕ) : ℕ × ℕ := (c + 1, c + 1)

/-- The ids issued by `n` consecutive requests of a flood tester whose
counter currently holds `c`. -/
def issueIds (c : ℕ) : ℕ → List ℕ
  | 0 => []
  | n + 1 =>
    let p := getRequestId c
    p.2 :: issueIds p.1 n

/-- The id attached to an `ABCIQueryFuzzer.query` request
(`storm/abci_query_fuzzer.py` line 252): `random.randint(1, 1000000)`,
modelled as a function of the raw random draw. -/
def fuzzerQueryId (draw : ℕ) : ℕ := draw % 1000000 + 1

/-- The ids of a sequence of fuzzer queries with the given random draws. -/
def fuzzerIds (draws : List ℕ) : List ℕ := draws.map fuzzerQueryId

/-! ## Path-discovery state -/

/-- `self.stats` of `ABCIQueryFuzzer` (`storm/abci_query_fuzzer.py`
lines 35-45).  `failed_paths` is a `path → count` dict, modelled as a
total counter map whose keys are the templates with positive count. -/
structure FuzzerStats where
  totalQueries : ℕ
  successfulQueries : ℕ
  failedQueries : ℕ
  pathsTried : Finset String
  successfulPaths : Finset String
  failedPaths : String → ℕ
  minResponseTime : WithTop ℚ
  maxResponseTime : ℚ
  totalResponseTime : ℚ

/-- Initial discovery state (`storm/abci_query_fuzzer.py` lines 35-45). -/
def fuzzerInitStats : FuzzerStats :=
  { totalQueries := 0
    successfulQueries := 0
    failedQueries := 0
    pathsTried := ∅
    successfulPaths := ∅
    failedPaths := fun _ => 0
    minResponseTime := ⊤
    maxResponseTime := 0
    totalResponseTime := 0 }

/-- One attempt of `discover_working_paths`
(`storm/abci_query_fuzzer.py` lines 495-514): count the query, add the
chosen template to `paths_tried`, then on success add it to
`successful_paths`, on failure bump its `failed_paths` count, and finally
update the latency accumulators. -/
def fuzzStep (s : FuzzerStats) (tmpl : String) (success : Bool) (rt : ℚ) :
    FuzzerStats :=
  let s := { s with
    totalQueries := s.totalQueries + 1
    pathsTried := insert tmpl s.pathsTried }
  let s :=
    if success then
      { s with
        successfulQueries := s.successfulQueries + 1
        successfulPaths := insert tmpl s.successfulPaths }
    else
      { s with
        failedQueries := s.failedQueries + 1
        failedPaths := bumpCount s.failedPaths tmpl }
  { s with
    minResponseTime :=
      if (rt : WithTop ℚ) < s.minResponseTime then (rt : WithTop ℚ)
      else s.minResponseTime
    maxResponseTime :=
      if s.maxResponseTime < rt then rt else s.maxResponseTime
    totalResponseTime := s.totalResponseTime + rt }

/-- The discovery loop over a trace of (template, success, response time)
attempts (`storm/abci_query_fuzzer.py` lines 482-519). -/
def fuzzRun (s : FuzzerStats) (trace : List (String × Bool × ℚ)) :
    FuzzerStats :=
  trace.foldl (fun s t => fuzzStep s t.1 t.2.1 t.2.2) s

/-! ## ABCI constructor method validation -/

/-- The fixed set of known ABCI (Tendermint RPC) method names
(`storm/abci.py` lines 45-65). -/
def allABCIMethods : List String :=
  [ "abci_info", "abci_query", "broadcast_tx_sync", "broadcast_tx_async",
    "broadcast_tx_commit", "block", "block_results", "blockchain",
    "consensus_state", "status", "net_info", "validators", "tx",
    "tx_search", "health", "commit", "genesis", "num_unconfirmed_txs",
    "unconfirmed_txs" ]

/-- Method-list selection of `ABCIFloodTester.__init__`
(`storm/abci.py` line 68): `methods if methods else self.all_methods` is
Python truthiness, so both an absent allow-list AND an empty one fall
back to all known methods; only a non-empty list is kept as given. -/
def abciSelectMethods (methods : Option (List String)) : List String :=
  match methods with
  | some (m :: rest) => m :: rest
  | _ => allABCIMethods

/-- Method-list validation of `ABCIFloodTester.__init__`
(`storm/abci.py` lines 67-73): after the truthiness selection of
`abciSelectMethods`, raise `ValueError` at the first name outside the
known set; on success the tested-method list is the selected list. -/
def abciValidateMethods (methods : Option (List String)) :
    Except String (List String) :=
  match (abciSelectMethods methods).find?
      (fun m => !allABCIMethods.contains m) with
  | some m => .error ("Unknown ABCI method: " ++ m)
  | none => .ok (abciSelectMethods methods)

/-! ## Trace-level latency views (for the report-builder claims) -/

/-- The response times of the successful outcomes of a result stream —
exactly the latencies the Ethereum fold accumulates. -/
def succLatencies (l : List (String × BatchResult)) : List ℚ :=
  l.filterMap fun p =>
    match p.2 with
    | .outcome true rt => some rt
    | _ => none

/-- The response times of all non-exception outcomes of a result stream —
exactly the latencies the ABCI fold accumulates. -/
def nonExcLatencies (l : List (String × BatchResult)) : List ℚ :=
  l.filterMap fun p =>
    match p.2 with
    | .outcome _ rt => some rt
    | .exception _ => none

/-- Latency-sentinel invariant of the Ethereum statistics: as long as no
request succeeded the min/max accumulators keep their sentinel values
(`inf` and `0`); once a success was folded, `min ≤ max`. -/
def ethLatInv (s : EthStats) : Prop :=
  (s.successfulRequests = 0 → s.minResponseTime = ⊤ ∧ s.maxResponseTime = 0) ∧
  (0 < s.successfulRequests →
    s.minResponseTime ≤ (s.maxResponseTime : WithTop ℚ))

/-- Latency-sentinel invariant of the ABCI statistics: the min
accumulator is at its sentinel only together with the max accumulator,
and once any latency was folded, `min ≤ max`. -/
def abciLatInv (s : AbciStats) : Prop :=
  (s.minResponseTime = ⊤ → s.maxResponseTime = 0) ∧
  (s.minResponseTime ≠ ⊤ →
    s.minResponseTime ≤ (s.maxResponseTime : WithTop ℚ))

/-- Invariant of the path-discovery state: every template recorded as
successful, and every key of the failed-count map, is in `pathsTried`. -/
def fuzzInv (s : FuzzerStats) : Prop :=
  (∀ p, p ∈ s.successfulPaths → p ∈ s.pathsTried) ∧
  (∀ p, 0 < s.failedPaths p → p ∈ s.pathsTried)

/-! ## Helper lemmas -/

theorem ite_min_le_left {α : Type} [LinearOrder α] (a b : α) :
    (if b < a then b else a) ≤ a := by
  split
  · exact le_of_lt (by assumption)
  · exact le_refl a

theorem ite_min_le_right {α : Type} [LinearOrder α] (a b : α) :
    (if b < a then b else a) ≤ b := by
  split
  · exact le_refl b
  · exact le_of_not_lt (by assumption)

theorem le_ite_max_left {α : Type} [LinearOrder α] (a b : α) :
    a ≤ (if a < b then b else a) := by
  split
  · exact le_of_lt (by assumption)
  · exact le_refl a

theorem le_ite_max_right {α : Type} [LinearOrder α] (a b : α) :
    b ≤ (if a < b then b else a) := by
  split
  · exact le_refl b
  · exact le_of_not_lt (by assumption)

theorem ethFoldOne_totalRequests (s : EthStats) (m : String) (r : BatchResult) :
    (ethFoldOne s m r).totalRequests = s.totalRequests + 1 := by
  cases r with
  | exception e => rfl
  | outcome b rt => cases b <;> rfl

theorem ethFoldOne_sf (s : EthStats) (m : String) (r : BatchResult) :
    (ethFoldOne s m r).successfulRequests + (ethFoldOne s m r).failedRequests
      = s.successfulRequests + s.failedRequests + 1 := by
  cases r with
  | exception e => rfl
  | outcome b rt =>
    cases b
    · rfl
    · show s.successfulRequests + 1 + s.failedRequests
        = s.successfulRequests + s.failedRequests + 1
      omega

theorem ethCycle_totalRequests (batch : List (String × BatchResult))
    (s : EthStats) :
    (ethCycle s batch).totalRequests = s.totalRequests + batch.length := by
  induction batch generalizing s with
  | nil => rfl
  | cons p t ih =>
    show (ethCycle (ethFoldOne s p.1 p.2) t).totalRequests = _
    rw [ih, ethFoldOne_totalRequests]
    simp [List.length_cons]
    omega

theorem ethCycle_sf (batch : List (String × BatchResult)) (s : EthStats) :
    (ethCycle s batch).successfulRequests + (ethCycle s batch).failedRequests
      = s.successfulRequests + s.failedRequests + batch.length := by
  induction batch generalizing s with
  | nil => rfl
  | cons p t ih =>
    show (ethCycle (ethFoldOne s p.1 p.2) t).successfulRequests
        + (ethCycle (ethFoldOne s p.1 p.2) t).failedRequests = _
    rw [ih, ethFoldOne_sf]
    simp [List.length_cons]
    omega

theorem abciFoldOne_totalRequests (s : AbciStats) (m : String)
    (r : BatchResult) :
    (abciFoldOne s m r).totalRequests = s.totalRequests := by
  cases r with
  | exception e => rfl
  | outcome b rt => cases b <;> rfl

theorem abciFoldOne_sf (s : AbciStats) (m : String) (r : BatchResult) :
    (abciFoldOne s m r).successfulRequests + (abciFoldOne s m r).failedRequests
      = s.successfulRequests + s.failedRequests + 1 := by
  cases r with
  | exception e => rfl
  | outcome b rt =>
    cases b
    · rfl
    · show s.successfulRequests + 1 + s.failedRequests
        = s.successfulRequests + s.failedRequests + 1
      omega

theorem abciFoldList_totalRequests (batch : List (String × BatchResult))
    (s : AbciStats) :
    (batch.foldl (fun s p => abciFoldOne s p.1 p.2) s).totalRequests
      = s.totalRequests := by
  induction batch generalizing s with
  | nil => rfl
  | cons p t ih => rw [List.foldl_cons, ih, abciFoldOne_totalRequests]

theorem abciFoldList_sf (batch : List (String × BatchResult)) (s : AbciStats) :
    (batch.foldl (fun s p => abciFoldOne s p.1 p.2) s).successfulRequests
        + (batch.foldl (fun s p => abciFoldOne s p.1 p.2) s).failedRequests
      = s.successfulRequests + s.failedRequests + batch.length := by
  induction batch generalizing s with
  | nil => rfl
  | cons p t ih =>
    rw [List.foldl_cons, ih, abciFoldOne_sf]
    simp [List.length_cons]
    omega

theorem abciCycle_totalRequests (batch : List (String × BatchResult))
    (s : AbciStats) :
    (abciCycle s batch).totalRequests = s.totalRequests + batch.length := by
  show (batch.foldl (fun s p => abciFoldOne s p.1 p.2)
      (abciDispatch s (batch.map Prod.fst))).totalRequests + batch.length = _
  rw [abciFoldList_totalRequests]
  rfl

theorem abciCycle_sf (batch : List (String × BatchResult)) (s : AbciStats) :
    (abciCycle s batch).successfulRequests + (abciCycle s batch).failedRequests
      = s.successfulRequests + s.failedRequests + batch.length := by
  show (batch.foldl (fun s p => abciFoldOne s p.1 p.2)
        (abciDispatch s (batch.map Prod.fst))).successfulRequests
      + (batch.foldl (fun s p => abciFoldOne s p.1 p.2)
        (abciDispatch s (batch.map Prod.fst))).failedRequests = _
  rw [abciFoldList_sf]
  rfl

theorem abciRunLoop_totalRequests
    (batches : List (List (String × BatchResult))) (s : AbciStats) :
    (abciRunLoop s batches).totalRequests
      = s.totalRequests + (batches.map List.length).sum := by
  induction batches generalizing s with
  | nil => rfl
  | cons b t ih =>
    show (abciRunLoop (abciCycle s b) t).totalRequests = _
    rw [ih, abciCycle_totalRequests]
    simp [List.sum_cons]
    omega

theorem abciRunLoop_sf (batches : List (List (String × BatchResult)))
    (s : AbciStats) :
    (abciRunLoop s batches).successfulRequests
        + (abciRunLoop s batches).failedRequests
      = s.successfulRequests + s.failedRequests
        + (batches.map List.length).sum := by
  induction batches generalizing s with
  | nil => rfl
  | cons b t ih =>
    show (abciRunLoop (abciCycle s b) t).successfulRequests
        + (abciRunLoop (abciCycle s b) t).failedRequests = _
    rw [ih, abciCycle_sf]
    simp [List.sum_cons]
    omega

theorem latUpdate_min_le_max (mn : WithTop ℚ) (mx rt : ℚ) :
    (if (rt : WithTop ℚ) < mn then (rt : WithTop ℚ) else mn)
      ≤ (((if mx < rt then rt else mx) : ℚ) : WithTop ℚ) := by
  split
  · exact WithTop.coe_le_coe.mpr (le_ite_max_right mx rt)
  · exact le_trans (le_of_not_lt (by assumption))
      (WithTop.coe_le_coe.mpr (le_ite_max_right mx rt))

theorem latUpdate_min_ne_top (mn : WithTop ℚ) (rt : ℚ) :
    (if (rt : WithTop ℚ) < mn then (rt : WithTop ℚ) else mn) ≠ ⊤ := by
  split
  · exact WithTop.coe_ne_top
  · exact ne_top_of_le_ne_top WithTop.coe_ne_top
      (le_of_not_lt (by assumption))

theorem ethFoldOne_latInv (s : EthStats) (m : String) (r : BatchResult)
    (h : ethLatInv s) : ethLatInv (ethFoldOne s m r) := by
  cases r with
  | exception e => exact h
  | outcome b rt =>
    cases b
    · exact h
    · constructor
      · intro h0
        exact absurd h0 (Nat.succ_ne_zero s.successfulRequests)
      · intro _
        exact latUpdate_min_le_max s.minResponseTime s.maxResponseTime rt

theorem ethCycle_latInv (batch : List (String × BatchResult)) (s : EthStats)
    (h : ethLatInv s) : ethLatInv (ethCycle s batch) := by
  induction batch generalizing s with
  | nil => exact h
  | cons p t ih => exact ih (ethFoldOne s p.1 p.2) (ethFoldOne_latInv s p.1 p.2 h)

theorem ethInit_latInv : ethLatInv ethInitStats :=
  ⟨fun _ => ⟨rfl, rfl⟩, fun h => absurd h (lt_irrefl 0)⟩

theorem abciFoldOne_latInv (s : AbciStats) (m : String) (r : BatchResult)
    (h : abciLatInv s) : abciLatInv (abciFoldOne s m r) := by
  cases r with
  | exception e => exact h
  | outcome b rt =>
    cases b <;>
      exact ⟨fun htop =>
          absurd htop (latUpdate_min_ne_top s.minResponseTime rt),
        fun _ => latUpdate_min_le_max s.minResponseTime s.maxResponseTime rt⟩

theorem abciFoldList_latInv (batch : List (String × BatchResult))
    (s : AbciStats) (h : abciLatInv s) :
    abciLatInv (batch.foldl (fun s p => abciFoldOne s p.1 p.2) s) := by
  induction batch generalizing s with
  | nil => exact h
  | cons p t ih =>
    exact ih (abciFoldOne s p.1 p.2) (abciFoldOne_latInv s p.1 p.2 h)

theorem abciCycle_latInv (batch : List (String × BatchResult))
    (s : AbciStats) (h : abciLatInv s) : abciLatInv (abciCycle s batch) :=
  abciFoldList_latInv batch (abciDispatch s (batch.map Prod.fst)) h

theorem abciRunLoop_latInv (batches : List (List (String × BatchResult)))
    (s : AbciStats) (h : abciLatInv s) : abciLatInv (abciRunLoop s batches) := by
  induction batches generalizing s with
  | nil => exact h
  | cons b t ih => exact ih (abciCycle s b) (abciCycle_latInv b s h)

theorem abciInit_latInv : abciLatInv abciInitStats :=
  ⟨fun _ => rfl, fun h => absurd rfl h⟩

theorem ethCycle_sum (batch : List (String × BatchResult)) (s : EthStats) :
    (ethCycle s batch).totalResponseTime
      = s.totalResponseTime + (succLatencies batch).sum := by
  induction batch generalizing s with
  | nil => simp [ethCycle, succLatencies]
  | cons p t ih =>
    show (ethCycle (ethFoldOne s p.1 p.2) t).totalResponseTime = _
    rw [ih]
    obtain ⟨m, r⟩ := p
    cases r with
    | exception e => simp [ethFoldOne, succLatencies]
    | outcome b rt =>
      cases b
      · simp [ethFoldOne, succLatencies]
      · show (s.totalResponseTime + rt) + (succLatencies t).sum = _
        simp [succLatencies, List.sum_cons]
        ring

theorem ethCycle_succCount (batch : List (String × BatchResult))
    (s : EthStats) :
    (ethCycle s batch).successfulRequests
      = s.successfulRequests + (succLatencies batch).length := by
  induction batch generalizing s with
  | nil => simp [ethCycle, succLatencies]
  | cons p t ih =>
    show (ethCycle (ethFoldOne s p.1 p.2) t).successfulRequests = _
    rw [ih]
    obtain ⟨m, r⟩ := p
    cases r with
    | exception e => simp [ethFoldOne, succLatencies]
    | outcome b rt =>
      cases b
      · simp [ethFoldOne, succLatencies]
      · show s.successfulRequests + 1 + (succLatencies t).length = _
        simp [succLatencies, List.length_cons]
        omega

theorem abciFoldOne_sum (s : AbciStats) (m : String) (r : BatchResult) :
    (abciFoldOne s m r).totalResponseTime
      = s.totalResponseTime
        + (match r with
           | .outcome _ rt => rt
           | .exception _ => 0) := by
  cases r with
  | exception e => simp [abciFoldOne]
  | outcome b rt => cases b <;> rfl

theorem abciFoldList_sum (batch : List (String × BatchResult))
    (s : AbciStats) :
    (batch.foldl (fun s p => abciFoldOne s p.1 p.2) s).totalResponseTime
      = s.totalResponseTime + (nonExcLatencies batch).sum := by
  induction batch generalizing s with
  | nil => simp [nonExcLatencies]
  | cons p t ih =>
    rw [List.foldl_cons, ih, abciFoldOne_sum]
    obtain ⟨m, r⟩ := p
    cases r with
    | exception e => simp [nonExcLatencies]
    | outcome b rt =>
      simp [nonExcLatencies, List.sum_cons]
      ring

theorem abciCycle_sum (batch : List (String × BatchResult)) (s : AbciStats) :
    (abciCycle s batch).totalResponseTime
      = s.totalResponseTime + (nonExcLatencies batch).sum := by
  show (batch.foldl (fun s p => abciFoldOne s p.1 p.2)
      (abciDispatch s (batch.map Prod.fst))).totalResponseTime = _
  rw [abciFoldList_sum]
  rfl

theorem abciRunLoop_sum (batches : List (List (String × BatchResult)))
    (s : AbciStats) :
    (abciRunLoop s batches).totalResponseTime
      = s.totalResponseTime
        + (batches.map (fun b => (nonExcLatencies b).sum)).sum := by
  induction batches generalizing s with
  | nil => simp [abciRunLoop]
  | cons b t ih =>
    show (abciRunLoop (abciCycle s b) t).totalResponseTime = _
    rw [ih, abciCycle_sum]
    simp [List.sum_cons]
    ring

theorem issueIds_mem_lt (n : ℕ) :
    ∀ (c x : ℕ), x ∈ issueIds c n → c < x := by
  induction n with
  | zero => intro c x hx; simp [issueIds] at hx
  | succ n ih =>
    intro c x hx
    simp only [issueIds, getRequestId, List.mem_cons] at hx
    cases hx with
    | inl h => omega
    | inr h => have := ih (c + 1) x h; omega

theorem fuzzStep_inv (s : FuzzerStats) (tmpl : String) (ok : Bool) (rt : ℚ)
    (h : fuzzInv s) : fuzzInv (fuzzStep s tmpl ok rt) := by
  obtain ⟨h1, h2⟩ := h
  cases ok with
  | true =>
    constructor
    · intro p hp
      show p ∈ insert tmpl s.pathsTried
      have : p ∈ insert tmpl s.successfulPaths := hp
      rcases Finset.mem_insert.mp this with h | h
      · exact Finset.mem_insert.mpr (Or.inl h)
      · exact Finset.mem_insert.mpr (Or.inr (h1 p h))
    · intro p hp
      show p ∈ insert tmpl s.pathsTried
      exact Finset.mem_insert.mpr (Or.inr (h2 p hp))
  | false =>
    constructor
    · intro p hp
      show p ∈ insert tmpl s.pathsTried
      exact Finset.mem_insert.mpr (Or.inr (h1 p hp))
    · intro p hp
      show p ∈ insert tmpl s.pathsTried
      have hp' : 0 < bumpCount s.failedPaths tmpl p := hp
      by_cases hpt : p = tmpl
      · exact Finset.mem_insert.mpr (Or.inl hpt)
      · refine Finset.mem_insert.mpr (Or.inr (h2 p ?_))
        simpa [bumpCount, hpt] using hp'

theorem fuzzRun_inv (trace : List (String × Bool × ℚ)) (s : FuzzerStats)
    (h : fuzzInv s) : fuzzInv (fuzzRun s trace) := by
  induction trace generalizing s with
  | nil => exact h
  | cons p t ih =>
    exact ih (fuzzStep s p.1 p.2.1 p.2.2) (fuzzStep_inv s p.1 p.2.1 p.2.2 h)

theorem fuzzInit_inv : fuzzInv fuzzerInitStats := by
  constructor
  · intro p hp
    simp [fuzzerInitStats] at hp
  · intro p hp
    simp [fuzzerInitStats] at hp

theorem abciCycle_nil (s : AbciStats) : abciCycle s [] = s := rfl

theorem abciRunLoop_all_nil (batches : List (List (String × BatchResult)))
    (s : AbciStats) (h : ∀ b ∈ batches, b = []) :
    abciRunLoop s batches = s := by
  induction batches generalizing s with
  | nil => rfl
  | cons b t ih =>
    have hb : b = [] := h b (List.mem_cons_self b t)
    show abciRunLoop (abciCycle s b) t = s
    rw [hb, abciCycle_nil]
    exact ih s (fun b' hb' => h b' (List.mem_cons_of_mem b hb'))

theorem selectMethod_mem (avail : List String) (h : avail ≠ []) (k : ℕ) :
    selectMethod avail h k ∈ avail :=
  List.get_mem avail _ _

/-! ## Claim theorems -/

/-- C1 (amended): in the Ethereum variant,
`successCount + failureCount = totalRequests` holds at every observation
point after a request's outcome has been folded (every prefix of the
result stream is itself a stream, so interrupted runs are covered); in
the ABCI variant the equality holds at every cycle boundary — and hence
for every completed run — because `total_requests` is only incremented by
the batch size at the end of each cycle. -/
theorem c1_stats_balance :
    (∀ stream : List (String × BatchResult),
      (ethCycle ethInitStats stream).successfulRequests
          + (ethCycle ethInitStats stream).failedRequests
        = (ethCycle ethInitStats stream).totalRequests) ∧
    (∀ batches : List (List (String × BatchResult)),
      (abciRunLoop abciInitStats batches).successfulRequests
          + (abciRunLoop abciInitStats batches).failedRequests
        = (abciRunLoop abciInitStats batches).totalRequests) := by
  constructor
  · intro stream
    rw [ethCycle_sf, ethCycle_totalRequests]
    rfl
  · intro batches
    rw [abciRunLoop_sf, abciRunLoop_totalRequests]
    rfl

/-- C1 counterexample: in the ABCI variant, at the observation point
right after the first outcome of a cycle has been folded
(`storm/abci.py` lines 434-454) but before the end-of-cycle
`total_requests` update (line 465) — a state also reportable when the run
is interrupted during the pacing sleep — the claimed equality fails:
`successCount + failureCount = 1` while `totalRequests = 0`. -/
theorem c1_stats_balance_counterexample :
    (abciFoldOne (abciDispatch abciInitStats ["status"]) "status"
        (BatchResult.outcome true 1)).successfulRequests
      + (abciFoldOne (abciDispatch abciInitStats ["status"]) "status"
        (BatchResult.outcome true 1)).failedRequests
      ≠ (abciFoldOne (abciDispatch abciInitStats ["status"]) "status"
        (BatchResult.outcome true 1)).totalRequests := by
  decide

/-- C3: every batch of size `R ≥ 1` folds exactly `R` outcomes into the
statistics of either variant — the total-request count grows by exactly
`R` and the success/failure counters together grow by exactly `R`,
whatever mix of successes, failures and captured exceptions the gathered
results contain. -/
theorem c3_batch_slots (s : EthStats) (t : AbciStats)
    (batch : List (String × BatchResult)) (_hR : 1 ≤ batch.length) :
    ((ethCycle s batch).totalRequests = s.totalRequests + batch.length ∧
      (ethCycle s batch).successfulRequests + (ethCycle s batch).failedRequests
        = s.successfulRequests + s.failedRequests + batch.length) ∧
    ((abciCycle t batch).totalRequests = t.totalRequests + batch.length ∧
      (abciCycle t batch).successfulRequests
          + (abciCycle t batch).failedRequests
        = t.successfulRequests + t.failedRequests + batch.length) := by
  exact ⟨⟨ethCycle_totalRequests batch s, ethCycle_sf batch s⟩,
    ⟨abciCycle_totalRequests batch t, abciCycle_sf batch t⟩⟩

/-- C3 witness: a concrete batch of size 3 containing a captured
transport exception, a success and a protocol failure yields exactly 3
folded outcomes in both variants. -/
theorem c3_batch_slots_witness :
    1 ≤ ([("a", BatchResult.exception "boom"),
          ("b", BatchResult.outcome true 1),
          ("c", BatchResult.outcome false 2)] :
            List (String × BatchResult)).length ∧
    ((ethCycle ethInitStats
        [("a", BatchResult.exception "boom"),
         ("b", BatchResult.outcome true 1),
         ("c", BatchResult.outcome false 2)]).totalRequests
      = ethInitStats.totalRequests + 3 ∧
     (ethCycle ethInitStats
        [("a", BatchResult.exception "boom"),
         ("b", BatchResult.outcome true 1),
         ("c", BatchResult.outcome false 2)]).successfulRequests
        + (ethCycle ethInitStats
        [("a", BatchResult.exception "boom"),
         ("b", BatchResult.outcome true 1),
         ("c", BatchResult.outcome false 2)]).failedRequests
      = ethInitStats.successfulRequests + ethInitStats.failedRequests + 3) ∧
    ((abciCycle abciInitStats
        [("a", BatchResult.exception "boom"),
         ("b", BatchResult.outcome true 1),
         ("c", BatchResult.outcome false 2)]).totalRequests
      = abciInitStats.totalRequests + 3 ∧
     (abciCycle abciInitStats
        [("a", BatchResult.exception "boom"),
         ("b", BatchResult.outcome true 1),
         ("c", BatchResult.outcome false 2)]).successfulRequests
        + (abciCycle abciInitStats
        [("a", BatchResult.exception "boom"),
         ("b", BatchResult.outcome true 1),
         ("c", BatchResult.outcome false 2)]).failedRequests
      = abciInitStats.successfulRequests + abciInitStats.failedRequests + 3) :=
  ⟨by decide,
    c3_batch_slots ethInitStats abciInitStats
      [("a", BatchResult.exception "boom"),
       ("b", BatchResult.outcome true 1),
       ("c", BatchResult.outcome false 2)] (by decide)⟩

/-- C4 (amended): `minLatency ≤ maxLatency` holds as soon as at least one
latency observation has been folded — in the Ethereum variant after at
least one successful request (latencies are recorded only on the success
path), in the ABCI variant as soon as the min accumulator has left its
sentinel (latencies are recorded for every non-exception outcome) — and
both accumulators keep their sentinel values (`min = ∞`, `max = 0`) when
`totalRequests = 0`. -/
theorem c4_latency_bounds :
    (∀ stream : List (String × BatchResult),
      0 < (ethCycle ethInitStats stream).successfulRequests →
        (ethCycle ethInitStats stream).minResponseTime
          ≤ ((ethCycle ethInitStats stream).maxResponseTime : WithTop ℚ)) ∧
    (∀ stream : List (String × BatchResult),
      (ethCycle ethInitStats stream).totalRequests = 0 →
        (ethCycle ethInitStats stream).minResponseTime = ⊤ ∧
        (ethCycle ethInitStats stream).maxResponseTime = 0) ∧
    (∀ batches : List (List (String × BatchResult)),
      (abciRunLoop abciInitStats batches).minResponseTime ≠ ⊤ →
        (abciRunLoop abciInitStats batches).minResponseTime
          ≤ ((abciRunLoop abciInitStats batches).maxResponseTime :
              WithTop ℚ)) ∧
    (∀ batches : List (List (String × BatchResult)),
      (abciRunLoop abciInitStats batches).totalRequests = 0 →
        (abciRunLoop abciInitStats batches).minResponseTime = ⊤ ∧
        (abciRunLoop abciInitStats batches).maxResponseTime = 0) := by
  refine ⟨?_, ?_, ?_, ?_⟩
  · intro stream h
    exact (ethCycle_latInv stream ethInitStats ethInit_latInv).2 h
  · intro stream h
    rw [ethCycle_totalRequests] at h
    have hlen : stream.length = 0 := by omega
    have hnil : stream = [] := List.length_eq_zero.mp hlen
    subst hnil
    exact ⟨rfl, rfl⟩
  · intro batches h
    exact (abciRunLoop_latInv batches abciInitStats abciInit_latInv).2 h
  · intro batches h
    rw [abciRunLoop_totalRequests] at h
    have hall : ∀ b ∈ batches, b = [] := by
      intro b hb
      have : b.length = 0 := by
        have hsum : (batches.map List.length).sum = 0 := by omega
        have := List.sum_eq_zero_iff.mp hsum b.length
          (List.mem_map.mpr ⟨b, hb, rfl⟩)
        exact this
      exact List.length_eq_zero.mp this
    rw [abciRunLoop_all_nil batches abciInitStats hall]
    exact ⟨rfl, rfl⟩

/-- C4 counterexample: a completed Ethereum run consisting of one failed
request has `totalRequests = 1 > 0` yet its min accumulator is still at
the `∞` sentinel and its max accumulator at `0`, so
`minLatency ≤ maxLatency` fails. -/
theorem c4_latency_bounds_counterexample :
    0 < (ethCycle ethInitStats
        [("m", BatchResult.outcome false 1)]).totalRequests ∧
    ¬ (ethCycle ethInitStats
        [("m", BatchResult.outcome false 1)]).minResponseTime
      ≤ ((ethCycle ethInitStats
        [("m", BatchResult.outcome false 1)]).maxResponseTime :
          WithTop ℚ) := by
  constructor
  · decide
  · show ¬ (⊤ : WithTop ℚ) ≤ ((0 : ℚ) : WithTop ℚ)
    simp

/-- C4 witness: one successful Ethereum request with latency 2 gives a
positive success count and `min ≤ max`; the empty stream keeps both
variants' accumulators at their sentinels; one ABCI batch containing a
failed (non-exception) outcome moves the min accumulator off its sentinel
and `min ≤ max` holds. -/
theorem c4_latency_bounds_witness :
    (0 < (ethCycle ethInitStats
        [("m", BatchResult.outcome true 2)]).successfulRequests ∧
      (ethCycle ethInitStats
        [("m", BatchResult.outcome true 2)]).minResponseTime
        ≤ ((ethCycle ethInitStats
        [("m", BatchResult.outcome true 2)]).maxResponseTime :
            WithTop ℚ)) ∧
    ((ethCycle ethInitStats []).totalRequests = 0 ∧
      (ethCycle ethInitStats []).minResponseTime = ⊤ ∧
      (ethCycle ethInitStats []).maxResponseTime = 0) ∧
    ((abciRunLoop abciInitStats
        [[("m", BatchResult.outcome false 3)]]).minResponseTime ≠ ⊤ ∧
      (abciRunLoop abciInitStats
        [[("m", BatchResult.outcome false 3)]]).minResponseTime
        ≤ ((abciRunLoop abciInitStats
        [[("m", BatchResult.outcome false 3)]]).maxResponseTime :
            WithTop ℚ)) ∧
    ((abciRunLoop abciInitStats []).totalRequests = 0 ∧
      (abciRunLoop abciInitStats []).minResponseTime = ⊤ ∧
      (abciRunLoop abciInitStats []).maxResponseTime = 0) := by
  refine ⟨⟨by decide, c4_latency_bounds.1 _ (by decide)⟩,
    ⟨rfl, c4_latency_bounds.2.1 [] rfl⟩,
    ⟨?_, c4_latency_bounds.2.2.1 _ ?_⟩,
    ⟨rfl, c4_latency_bounds.2.2.2 [] rfl⟩⟩ <;>
  · show ((3 : ℚ) : WithTop ℚ) ≠ ⊤
    exact WithTop.coe_ne_top

/-- C5 (amended): the Ethereum report divides the accumulated latency by
the SUCCESS count, not by `totalRequests` — the accumulated latency is
exactly the sum of the latencies of the successful outcomes (accumulation
happens only on the success path), the success counter is exactly their
number, and the average is their quotient, guarded to `0` when there were
no successes.  The ABCI report divides by `max(1, totalRequests)`, and its
accumulated latency is the sum over ALL non-exception outcomes, failed or
successful.  Both report computations are pure functions of the finalized
statistics. -/
theorem c5_average_latency :
    (∀ stream : List (String × BatchResult),
      (ethCycle ethInitStats stream).totalResponseTime
        = (succLatencies stream).sum) ∧
    (∀ stream : List (String × BatchResult),
      (ethCycle ethInitStats stream).successfulRequests
        = (succLatencies stream).length) ∧
    (∀ stream : List (String × BatchResult),
      ethAvg (ethCycle ethInitStats stream)
        = if 0 < (succLatencies stream).length then
            (succLatencies stream).sum / ((succLatencies stream).length : ℚ)
          else 0) ∧
    (∀ batches : List (List (String × BatchResult)),
      (abciRunLoop abciInitStats batches).totalResponseTime
        = (batches.map (fun b => (nonExcLatencies b).sum)).sum) ∧
    (∀ batches : List (List (String × BatchResult)),
      abciAvg (abciRunLoop abciInitStats batches)
        = (batches.map (fun b => (nonExcLatencies b).sum)).sum
          / ((max 1 (batches.map List.length).sum : ℕ) : ℚ)) := by
  refine ⟨?_, ?_, ?_, ?_, ?_⟩
  · intro stream
    rw [ethCycle_sum]
    show 0 + (succLatencies stream).sum = _
    ring
  · intro stream
    rw [ethCycle_succCount]
    show 0 + (succLatencies stream).length = _
    omega
  · intro stream
    unfold ethAvg
    rw [ethCycle_sum, ethCycle_succCount]
    show (if 0 < 0 + (succLatencies stream).length then
        (0 + (succLatencies stream).sum) / ((0 + (succLatencies stream).length : ℕ) : ℚ)
      else 0) = _
    simp
  · intro batches
    rw [abciRunLoop_sum]
    show 0 + _ = _
    ring
  · intro batches
    unfold abciAvg
    rw [abciRunLoop_sum, abciRunLoop_totalRequests]
    show (0 + (batches.map (fun b => (nonExcLatencies b).sum)).sum)
        / ((max 1 (0 + (batches.map List.length).sum) : ℕ) : ℚ) = _
    simp

/-- C5 counterexample: an Ethereum run with one successful request
(latency 10) and one failed request has `sumLatency = 10` and
`totalRequests = 2`, but the report's average is `10` (it divides by the
success count, 1), not the claimed `sumLatency / totalRequests = 5`. -/
theorem c5_average_latency_counterexample :
    ethAvg (ethCycle ethInitStats
        [("m", BatchResult.outcome true 10),
         ("m", BatchResult.outcome false 3)])
      ≠ (ethCycle ethInitStats
        [("m", BatchResult.outcome true 10),
         ("m", BatchResult.outcome false 3)]).totalResponseTime
        / (((ethCycle ethInitStats
        [("m", BatchResult.outcome true 10),
         ("m", BatchResult.outcome false 3)]).totalRequests : ℕ) : ℚ) := by
  show (if 0 < 1 then ((0 : ℚ) + 10) / ((1 : ℕ) : ℚ) else 0)
    ≠ ((0 : ℚ) + 10) / ((2 : ℕ) : ℚ)
  norm_num

/-- C2: both response classifiers evaluate their checks in exactly the
claimed short-circuit order — transport error, then HTTP status, then
parse failure, then protocol-level error (JSON-RPC `error` member; for
the query-style classifier also a non-zero `result.response.code`), then
success — so each input triple lands in exactly one branch, a malformed
body is never classified as a protocol error, a protocol error is
classified as such and never as a transport failure, and a transport
failure is reported exactly when a transport error is present. -/
theorem c2_classification_order :
    (∀ (t : Option String) (st : ℕ) (b : Body),
      (classifyEth t st b).branch = specBranchEth t st b) ∧
    (∀ (t : Option String) (st : ℕ) (b : Body),
      (classifyQuery t st b).branch = specBranchQuery t st b) ∧
    (∀ (t : Option String) (st : ℕ) (raw e : String),
      classifyEth t st (Body.malformed raw) ≠ Classified.protocolFailure e) ∧
    (∀ (t : Option String) (st : ℕ) (raw e : String),
      classifyQuery t st (Body.malformed raw) ≠ Classified.protocolFailure e) ∧
    (∀ (raw err : String) (c : Int),
      classifyEth none 200 (Body.parsed raw (some err) c)
        = Classified.protocolFailure err ∧
      classifyQuery none 200 (Body.parsed raw (some err) c)
        = Classified.protocolFailure err) ∧
    (∀ (t : Option String) (st : ℕ) (b : Body) (e : String),
      classifyEth t st b = Classified.transportFailure e ↔ t = some e) ∧
    (∀ (t : Option String) (st : ℕ) (b : Body) (e : String),
      classifyQuery t st b = Classified.transportFailure e ↔ t = some e) := by
  refine ⟨?_, ?_, ?_, ?_, ?_, ?_, ?_⟩
  · intro t st b
    cases t with
    | some e => rfl
    | none =>
      by_cases hst : st = 200
      · subst hst
        cases b with
        | malformed raw => simp [classifyEth, specBranchEth, Classified.branch]
        | parsed raw err c =>
          cases err <;>
            simp [classifyEth, specBranchEth, Classified.branch]
      · cases b <;>
          simp [classifyEth, specBranchEth, Classified.branch, hst]
  · intro t st b
    cases t with
    | some e => rfl
    | none =>
      by_cases hst : st = 200
      · subst hst
        cases b with
        | malformed raw =>
          simp [classifyQuery, specBranchQuery, Classified.branch]
        | parsed raw err c =>
          cases err with
          | none =>
            by_cases hc : c = 0 <;>
              simp [classifyQuery, specBranchQuery, Classified.branch, hc]
          | some e =>
            simp [classifyQuery, specBranchQuery, Classified.branch]
      · cases b <;>
          simp [classifyQuery, specBranchQuery, Classified.branch, hst]
  · intro t st raw e
    cases t with
    | some e2 => simp [classifyEth]
    | none =>
      by_cases hst : st = 200 <;> simp [classifyEth, hst]
  · intro t st raw e
    cases t with
    | some e2 => simp [classifyQuery]
    | none =>
      by_cases hst : st = 200 <;> simp [classifyQuery, hst]
  · intro raw err c
    exact ⟨rfl, rfl⟩
  · intro t st b e
    cases t with
    | some e2 => simp [classifyEth]
    | none =>
      constructor
      · intro h
        exfalso
        by_cases hst : st = 200
        · subst hst
          cases b with
          | malformed raw => simp [classifyEth] at h
          | parsed raw err c => cases err <;> simp [classifyEth] at h
        · simp [classifyEth, hst] at h
      · intro h
        exact absurd h (Option.some_ne_none e).symm
  · intro t st b e
    cases t with
    | some e2 => simp [classifyQuery]
    | none =>
      constructor
      · intro h
        exfalso
        by_cases hst : st = 200
        · subst hst
          cases b with
          | malformed raw => simp [classifyQuery] at h
          | parsed raw err c =>
            cases err with
            | none =>
              by_cases hc : c = 0 <;> simp [classifyQuery, hc] at h
            | some e3 => simp [classifyQuery] at h
        · simp [classifyQuery, hst] at h
      · intro h
        exact absurd h (Option.some_ne_none e).symm

/-- C6 (amended): when no method survives probing, neither variant issues
a batch — but only the ABCI variant turns this into a hard stop
(`sys.exit(1)`, which it also raises when the liveness probe fails, both
being configuration errors), while the Ethereum variant RETURNS its
statistics object (with `totalRequests = 0`) to the caller without any
error signal.  When the configuration is fine (service up, some method
available), the ABCI run completes normally with statistics — no other
error propagates. -/
theorem c6_config_error :
    (∀ (methods : List String) (probeOk : String → Bool)
        (batches : List (List (String × BatchResult))),
      probeFilter methods probeOk = [] →
        ethRun methods probeOk batches
          = Except.ok (ethProbe ethInitStats methods probeOk) ∧
        (ethProbe ethInitStats methods probeOk).totalRequests = 0) ∧
    (∀ (methods : List String) (probeOk : String → Bool)
        (batches : List (List (String × BatchResult))),
      abciRun false methods probeOk batches = Except.error 1) ∧
    (∀ (methods : List String) (probeOk : String → Bool)
        (batches : List (List (String × BatchResult))),
      probeFilter methods probeOk = [] →
        abciRun true methods probeOk batches = Except.error 1) ∧
    (∀ (methods : List String) (probeOk : String → Bool)
        (batches : List (List (String × BatchResult))),
      probeFilter methods probeOk ≠ [] →
        abciRun true methods probeOk batches
          = Except.ok (abciRunLoop
              { abciInitStats with
                  availableMethods := probeFilter methods probeOk }
              batches)) := by
  refine ⟨?_, ?_, ?_, ?_⟩
  · intro methods probeOk batches h
    constructor
    · show (if (ethProbe ethInitStats methods probeOk).availableMethods = []
          then _ else _) = _
      rw [if_pos]
      exact h
    · rfl
  · intro methods probeOk batches
    rfl
  · intro methods probeOk batches h
    show (if probeFilter methods probeOk = [] then _ else _) = _
    rw [if_pos h]
  · intro methods probeOk batches h
    show (if probeFilter methods probeOk = [] then _ else _) = _
    rw [if_neg h]

/-- C6 counterexample: an Ethereum run whose only candidate method fails
its probe returns a normal `Except.ok` statistics object (with zero
requests issued) — not an error — so no configuration-error signal
distinct from a statistics summary reaches the caller. -/
theorem c6_config_error_counterexample :
    ethRun ["status"] (fun _ => false)
        [[("status", BatchResult.outcome true 1)]]
      = Except.ok (ethProbe ethInitStats ["status"] (fun _ => false)) ∧
    (ethProbe ethInitStats ["status"] (fun _ => false)).totalRequests = 0 := by
  exact ⟨rfl, rfl⟩

/-- C6 witness: with one method that fails probing, the Ethereum run
returns its statistics (zero requests) while the ABCI run exits with
code 1; with a method that passes probing the ABCI run completes. -/
theorem c6_config_error_witness :
    (ethRun ["status"] (fun _ => false) []
        = Except.ok (ethProbe ethInitStats ["status"] (fun _ => false)) ∧
      (ethProbe ethInitStats ["status"] (fun _ => false)).totalRequests = 0) ∧
    abciRun false ["status"] (fun _ => true) [] = Except.error 1 ∧
    abciRun true ["status"] (fun _ => false) [] = Except.error 1 ∧
    abciRun true ["status"] (fun _ => true) []
      = Except.ok (abciRunLoop
          { abciInitStats with
              availableMethods := probeFilter ["status"] (fun _ => true) }
          []) :=
  ⟨c6_config_error.1 ["status"] (fun _ => false) [] (by decide),
    c6_config_error.2.1 ["status"] (fun _ => true) [],
    c6_config_error.2.2.1 ["status"] (fun _ => false) [] (by decide),
    c6_config_error.2.2.2 ["status"] (fun _ => true) [] (by decide)⟩

/-- C7: once the prober has marked a method unavailable (its probe
returned false), no batch-selection step can ever pick it: every
selection made by `random.choice` over the filtered available list is a
member of that list, and the unavailable method is not. -/
theorem c7_unavailable_never_selected
    (methods : List String) (probeOk : String → Bool)
    (h : probeFilter methods probeOk ≠ []) (m : String)
    (hm : probeOk m = false) (k : ℕ) :
    selectMethod (probeFilter methods probeOk) h k ≠ m := by
  intro heq
  have hmem : selectMethod (probeFilter methods probeOk) h k
      ∈ probeFilter methods probeOk :=
    selectMethod_mem (probeFilter methods probeOk) h k
  rw [heq] at hmem
  have := (List.mem_filter.mp hmem).2
  rw [hm] at this
  exact Bool.false_ne_true this

/-- C7 witness: with candidates `["status", "block"]` and only `"status"`
passing its probe, the selection at any draw (here 5) is never the
unavailable `"block"`. -/
theorem c7_unavailable_never_selected_witness :
    probeFilter ["status", "block"] (fun s => s == "status") ≠ [] ∧
    (fun s => s == "status") "block" = false ∧
    selectMethod (probeFilter ["status", "block"] (fun s => s == "status"))
        (by decide) 5 ≠ "block" :=
  ⟨by decide, by decide,
    c7_unavailable_never_selected ["status", "block"] (fun s => s == "status")
      (by decide) "block" (by decide) 5⟩

/-- C8 (amended): the flood testers' request ids are strictly increasing
per tester instance — each request takes the successor of the
per-instance counter — but the path-discovery fuzzer attaches an
independent uniform random id in `[1, 1000000]` to each query, so ids
are not monotonic across all requests of a process. -/
theorem c8_request_ids :
    (∀ c n : ℕ, List.Pairwise (fun a b => a < b) (issueIds c n)) ∧
    (∀ d : ℕ, 1 ≤ fuzzerQueryId d ∧ fuzzerQueryId d ≤ 1000000) := by
  constructor
  · intro c n
    induction n generalizing c with
    | zero => exact List.Pairwise.nil
    | succ n ih =>
      refine List.pairwise_cons.mpr ⟨?_, ih (c + 1)⟩
      intro x hx
      exact issueIds_mem_lt n (c + 1) x hx
  · intro d
    unfold fuzzerQueryId
    constructor
    · omega
    · have : d % 1000000 < 1000000 := Nat.mod_lt d (by omega)
      omega

/-- C8 counterexample: two consecutive fuzzer queries whose random draws
coincide (both 0) carry the same id `1`, so the later discovery request
does not have a strictly larger id than the earlier one. -/
theorem c8_request_ids_counterexample :
    ¬ List.Pairwise (fun a b => a < b) (fuzzerIds [0, 0]) := by
  decide

/-- C9: at every point of a discovery run (every trace is covered, hence
every prefix of a run), each template in `successfulPaths` and each key
of `failedPathCounts` is also in `pathsTried`; and a template can really
end up in both `successfulPaths` and `failedPathCounts` over repeated
draws, as witnessed by a flaky-path trace. -/
theorem c9_discovery_invariant :
    (∀ trace : List (String × Bool × ℚ),
      (∀ p, p ∈ (fuzzRun fuzzerInitStats trace).successfulPaths →
        p ∈ (fuzzRun fuzzerInitStats trace).pathsTried) ∧
      (∀ p, 0 < (fuzzRun fuzzerInitStats trace).failedPaths p →
        p ∈ (fuzzRun fuzzerInitStats trace).pathsTried)) ∧
    (∃ (trace : List (String × Bool × ℚ)) (p : String),
      p ∈ (fuzzRun fuzzerInitStats trace).successfulPaths ∧
      0 < (fuzzRun fuzzerInitStats trace).failedPaths p) := by
  constructor
  · intro trace
    exact fuzzRun_inv trace fuzzerInitStats fuzzInit_inv
  · refine ⟨[("t", true, 1), ("t", false, 1)], "t", ?_, ?_⟩ <;> decide

/-- C9 witness: on the concrete trace where template `"t"` succeeds once,
the invariant instantiates to `"t" ∈ pathsTried`. -/
theorem c9_discovery_invariant_witness :
    "t" ∈ (fuzzRun fuzzerInitStats [("t", true, 1)]).successfulPaths ∧
    "t" ∈ (fuzzRun fuzzerInitStats [("t", true, 1)]).pathsTried :=
  ⟨by decide, (c9_discovery_invariant.1 [("t", true, 1)]).1 "t" (by decide)⟩

/-- C10 (amended): constructing the ABCI flood tester with an allow-list
containing a name outside the fixed known-method set raises `ValueError`
(no tester state is produced); a valid NON-EMPTY allow-list yields
exactly that list as the tested methods; an absent allow-list — and, by
the truthiness test of `storm/abci.py` line 68, likewise an EMPTY
allow-list — yields all known methods. -/
theorem c10_method_validation :
    (∀ (ms : List String) (m : String), m ∈ ms → m ∉ allABCIMethods →
      ∃ e, abciValidateMethods (some ms) = Except.error e) ∧
    (∀ ms : List String, ms ≠ [] → (∀ m ∈ ms, m ∈ allABCIMethods) →
      abciValidateMethods (some ms) = Except.ok ms) ∧
    abciValidateMethods none = Except.ok allABCIMethods ∧
    abciValidateMethods (some []) = Except.ok allABCIMethods := by
  refine ⟨?_, ?_, ?_, ?_⟩
  · intro ms m hmem hnot
    cases ms with
    | nil => cases hmem
    | cons a t =>
      have helem : List.elem m allABCIMethods = false := by
        cases hb : List.elem m allABCIMethods with
        | true => exact absurd (List.elem_iff.mp hb) hnot
        | false => rfl
      have hpred : (fun x => !allABCIMethods.contains x) m = true := by
        show (!List.elem m allABCIMethods) = true
        rw [helem]
        rfl
      have hsome :
          ((a :: t).find? (fun x => !allABCIMethods.contains x)).isSome := by
        rw [List.find?_isSome]
        exact ⟨m, hmem, hpred⟩
      obtain ⟨m2, hm2⟩ := Option.isSome_iff_exists.mp hsome
      have hsel : abciSelectMethods (some (a :: t)) = a :: t := rfl
      refine ⟨"Unknown ABCI method: " ++ m2, ?_⟩
      unfold abciValidateMethods
      rw [hsel, hm2]
  · intro ms hne h
    cases ms with
    | nil => exact absurd rfl hne
    | cons a t =>
      have hnone :
          (a :: t).find? (fun x => !allABCIMethods.contains x) = none := by
        rw [List.find?_eq_none]
        intro x hx
        show ¬ (!List.elem x allABCIMethods) = true
        rw [List.elem_iff.mpr (h x hx)]
        simp
      have hsel : abciSelectMethods (some (a :: t)) = a :: t := rfl
      unfold abciValidateMethods
      rw [hsel, hnone]
  · rfl
  · rfl

/-- C10 counterexample: the empty allow-list contains no unknown name, so
construction succeeds — yet the tested-method list is NOT the given
(empty) list: the truthiness test `methods if methods else
self.all_methods` (`storm/abci.py` line 68) treats an empty allow-list
like an absent one and falls back to all known methods. -/
theorem c10_method_validation_counterexample :
    abciValidateMethods (some []) = Except.ok allABCIMethods ∧
    allABCIMethods ≠ ([] : List String) :=
  ⟨rfl, by decide⟩

/-- C10 witness: `["bogus"]` is rejected with a `ValueError`, while the
valid non-empty allow-list `["status"]` is accepted verbatim. -/
theorem c10_method_validation_witness :
    (∃ e, abciValidateMethods (some ["bogus"]) = Except.error e) ∧
    abciValidateMethods (some ["status"]) = Except.ok ["status"] :=
  ⟨c10_method_validation.1 ["bogus"] "bogus" (by decide) (by decide),
    c10_method_validation.2.1 ["status"] (by decide) (by decide)⟩

end Storm
